import Mathlib

/-
  Verification development for the rsyslog_exporter repository.

  The Go sources are shallowly embedded: Go strings become Lean `String`
  (a structure over `List Char`), Go byte buffers holding UTF-8 text become
  `String` as well, `int64` becomes `Int` (decoders enforce the int64 range
  exactly where encoding/json does), fallible functions return `Option` or
  `Except`, and the mutex-protected Go map inside the point store becomes an
  association list with a no-duplicate-keys invariant (each individual map
  operation in the source is atomic under the store lock, so the sequential
  association-list semantics is the per-operation semantics of the source).
-/

namespace RSE

/- ===== Go string primitives (package strings / bytes) ===== -/

/-- Embedding of strings.Contains: substring containment on UTF-8 text. -/
def goContains (hay pat : String) : Bool :=
  hay.data.tails.any (fun t => pat.data.isPrefixOf t)

/-- Embedding of strings.HasPrefix. -/
def goHasPre (s pre : String) : Bool :=
  pre.data.isPrefixOf s.data

/-- Embedding of strings.TrimPrefix. -/
def goTrimPre (s pre : String) : String :=
  if pre.data.isPrefixOf s.data then String.mk (s.data.drop pre.data.length) else s

/-- First split of a byte slice around a one-byte separator, used by
    bytes.SplitN: returns the part before the first separator and the rest. -/
def splitOnce : List Char → Char → Option (List Char × List Char)
  | [], _ => none
  | c :: cs, sep =>
    if c = sep then some ([], cs)
    else (splitOnce cs sep).map (fun p => (c :: p.1, p.2))

/-- Embedding of bytes.SplitN with a single-byte separator: at most n
    subslices, the last one carrying the unsplit remainder. -/
def goSplitN (s : List Char) (sep : Char) (n : Nat) : List (List Char)
  := match n with
  | 0 => []
  | 1 => [s]
  | Nat.succ m =>
    match splitOnce s sep with
    | none => [s]
    | some (pre, post) => pre :: goSplitN post sep m

/- ===== encoding/json: value model and parser ===== -/

/-- JSON values as produced by encoding/json. A number remembers whether its
    literal was a plain integer (no fraction, no exponent): that is exactly
    the condition under which encoding/json can store it into an int64 field.
    The integer value is meaningful only when isInt is true. -/
inductive Jval where
  | null : Jval
  | boolean : Bool → Jval
  | num : (isInt : Bool) → (v : Int) → Jval
  | str : String → Jval
  | arr : List Jval → Jval
  | obj : List (String × Jval) → Jval

/-- JSON whitespace as accepted by the encoding/json scanner: space, tab,
    line feed, carriage return. -/
def isWsChar (c : Char) : Bool :=
  [' ', '\t', '\n', '\r'].contains c

def skipWs (cs : List Char) : List Char := cs.dropWhile isWsChar

/-- Escape characters accepted inside JSON string literals (the \uXXXX form
    is not modelled; no payload in this development uses it). -/
def escTable : List (Char × Char) :=
  [('"', '"'), ('\\', '\\'), ('/', '/'), ('n', '\n'), ('t', '\t'), ('r', '\r'),
    ('b', Char.ofNat 8), ('f', Char.ofNat 12)]

def escChar (c : Char) : Option Char :=
  (escTable.find? (fun pc => pc.1 == c)).map Prod.snd

/-- Parses the body of a JSON string literal after the opening quote,
    returning the decoded characters and the input after the closing quote;
    unescaped control characters are a syntax error, as in the encoding/json
    scanner. -/
def parseStrBody : List Char → Option (List Char × List Char)
  | [] => none
  | '"' :: rest => some ([], rest)
  | '\\' :: [] => none
  | '\\' :: e :: rest =>
    match escChar e with
    | some c => (parseStrBody rest).map (fun p => (c :: p.1, p.2))
    | none => none
  | c :: rest =>
    if c.toNat < 32 then none
    else (parseStrBody rest).map (fun p => (c :: p.1, p.2))

def digitsToNat (ds : List Char) : Nat :=
  ds.foldl (fun a c => a * 10 + (c.toNat - 48)) 0

/-- Optional fraction part of a JSON number literal; reports whether one was
    present. -/
def parseFrac (cs : List Char) : Option (Bool × List Char) :=
  match cs with
  | '.' :: rest =>
    let ds := rest.takeWhile Char.isDigit
    if ds = [] then none else some (true, rest.dropWhile Char.isDigit)
  | _ => some (false, cs)

/-- Optional exponent part of a JSON number literal; reports whether one was
    present. -/
def parseExp (cs : List Char) : Option (Bool × List Char) :=
  match cs with
  | 'e' :: rest | 'E' :: rest =>
    let rest2 := match rest with
      | '+' :: r => r
      | '-' :: r => r
      | r => r
    let ds := rest2.takeWhile Char.isDigit
    if ds = [] then none else some (true, rest2.dropWhile Char.isDigit)
  | _ => some (false, cs)

/-- JSON number literal: optional minus, integer part without leading zeros,
    optional fraction and exponent. Returns (isInt, integer value) and the
    remaining input. -/
def parseNumber (cs : List Char) : Option ((Bool × Int) × List Char) :=
  let neg : Bool := match cs with | '-' :: _ => true | _ => false
  let cs1 := if neg then cs.tail else cs
  let ds := cs1.takeWhile Char.isDigit
  if ds = [] then none
  else if 2 ≤ ds.length ∧ ds.headD '0' = '0' then none
  else
    match parseFrac (cs1.dropWhile Char.isDigit) with
    | none => none
    | some (hadF, cs2) =>
      match parseExp cs2 with
      | none => none
      | some (hadE, cs3) =>
        let n : Int := Int.ofNat (digitsToNat ds)
        some ((!hadF && !hadE, if neg then -n else n), cs3)

mutual

/-- Recursive-descent JSON value parser (fuel-indexed; the fuel supplied by
    jsonParse always suffices because every recursive call consumes input). -/
def parseVal : Nat → List Char → Option (Jval × List Char)
  | 0, _ => none
  | Nat.succ fuel, cs =>
    match skipWs cs with
    | '{' :: rest =>
      match skipWs rest with
      | '}' :: rest2 => some (Jval.obj [], rest2)
      | rest2 => parseMembers fuel rest2 []
    | '[' :: rest =>
      match skipWs rest with
      | ']' :: rest2 => some (Jval.arr [], rest2)
      | rest2 => parseElems fuel rest2 []
    | '"' :: rest => (parseStrBody rest).map (fun p => (Jval.str (String.mk p.1), p.2))
    | 't' :: 'r' :: 'u' :: 'e' :: rest => some (Jval.boolean true, rest)
    | 'f' :: 'a' :: 'l' :: 's' :: 'e' :: rest => some (Jval.boolean false, rest)
    | 'n' :: 'u' :: 'l' :: 'l' :: rest => some (Jval.null, rest)
    | rest => (parseNumber rest).map (fun p => (Jval.num p.1.1 p.1.2, p.2))

/-- Parses the members of a JSON object after the opening brace (first key
    expected next), accumulating key/value pairs in source order. -/
def parseMembers : Nat → List Char → List (String × Jval) → Option (Jval × List Char)
  | 0, _, _ => none
  | Nat.succ fuel, cs, acc =>
    match cs with
    | '"' :: rest =>
      match parseStrBody rest with
      | none => none
      | some (key, rest2) =>
        match skipWs rest2 with
        | ':' :: rest3 =>
          match parseVal fuel rest3 with
          | none => none
          | some (v, rest4) =>
            match skipWs rest4 with
            | ',' :: rest5 => parseMembers fuel (skipWs rest5) (acc ++ [(String.mk key, v)])
            | '}' :: rest5 => some (Jval.obj (acc ++ [(String.mk key, v)]), rest5)
            | _ => none
        | _ => none
    | _ => none

/-- Parses the elements of a JSON array after the opening bracket (first
    element expected next). -/
def parseElems : Nat → List Char → List Jval → Option (Jval × List Char)
  | 0, _, _ => none
  | Nat.succ fuel, cs, acc =>
    match parseVal fuel cs with
    | none => none
    | some (v, rest) =>
      match skipWs rest with
      | ',' :: rest2 => parseElems fuel rest2 (acc ++ [v])
      | ']' :: rest2 => some (Jval.arr (acc ++ [v]), rest2)
      | _ => none

end

/-- Parses a complete JSON document; trailing non-whitespace input is an
    error, exactly as in json.Unmarshal. -/
def jsonParse (s : String) : Option Jval :=
  match parseVal (s.data.length + 1) s.data with
  | some (v, rest) => if skipWs rest = [] then some v else none
  | none => none

/-- Embedding of json.Unmarshal into a map with string keys: the document
    must be a JSON object. Duplicate keys are kept in source order; lookups
    below take the last binding, matching the overwrite behavior of the Go
    map decode. -/
def unmarshalObj (s : String) : Option (List (String × Jval)) :=
  match jsonParse s with
  | some (Jval.obj kvs) => some kvs
  | _ => none

/-- Lookup in a decoded JSON object with the last binding winning, matching
    the Go map contents after the object decode. -/
def objLookup (kvs : List (String × Jval)) (k : String) : Option Jval :=
  kvs.foldl (fun acc kv => if kv.1 = k then some kv.2 else acc) none

/- ===== internal/rsyslog/stat_type.go ===== -/

/-- Statistic kinds; source type name is `Type` (a reserved word in Lean),
    constructor names are kept verbatim. -/
inductive Ty where
  | TypeUnknown : Ty
  | TypeAction : Ty
  | TypeInput : Ty
  | TypeQueue : Ty
  | TypeResource : Ty
  | TypeDynStat : Ty
  | TypeDynafileCache : Ty
  | TypeInputIMDUP : Ty
  | TypeForward : Ty
  | TypeKubernetes : Ty
  | TypeOmkafka : Ty
deriving DecidableEq

open Ty

/-- Embedding of detectByName: parse JSON, classify on the "name" field;
    TypeUnknown when parsing fails or no name rule matches. -/
def detectByName (buf : String) : Ty :=
  match unmarshalObj buf with
  | none => TypeUnknown
  | some obj =>
    match objLookup obj "name" with
    | some (Jval.str s) =>
      if goHasPre s "mmkubernetes" then TypeKubernetes
      else if s = "omkafka" then TypeOmkafka
      else if s = "omfwd" then TypeForward
      else TypeUnknown
    | _ => TypeUnknown

/-- Embedding of detectBySubstring: the ordered substring heuristics. -/
def detectBySubstring (line : String) : Ty :=
  if goContains line "\"name\": \"omkafka\"" then TypeOmkafka
  else if goContains line "submitted" then TypeInput
  else if goContains line "called.recvmmsg" then TypeInputIMDUP
  else if goContains line "enqueued" then TypeQueue
  else if goContains line "utime" then TypeResource
  else if goContains line "dynstats" then TypeDynStat
  else if goContains line "dynafile cache" then TypeDynafileCache
  else if goContains line "omfwd" then TypeForward
  else if goContains line "mmkubernetes" then TypeKubernetes
  else TypeUnknown

/-- Embedding of StatType: the "processed" substring short-circuit, then the
    JSON name rules, then the substring heuristics. -/
def StatType (buf : String) : Ty :=
  if goContains buf "processed" then TypeAction
  else
    let t := detectByName buf
    if t ≠ TypeUnknown then t else detectBySubstring buf

/-- GetStatType is the classifier entry point called by the exporter and the
    tests; its defining file is not among the sources, and spec section 4.1
    specifies a single classification function, so it is the StatType
    detector. -/
def GetStatType (buf : String) : Ty := StatType buf

/- ===== internal/model: Point and Store ===== -/

inductive PointType where
  | Counter : PointType
  | Gauge : PointType
deriving DecidableEq

/-- Embedding of model.Point; the source field `Type` is a reserved word in
    Lean and is embedded as `Ptype`. Value is the int64 measurement. -/
structure Point where
  Name : String
  Description : String
  Ptype : PointType
  Value : Int
  LabelName : String
  LabelValue : String
deriving DecidableEq

/-- The Go zero value of Point, as returned by Get on a missing key. -/
def Point.zero : Point :=
  { Name := "", Description := "", Ptype := PointType.Counter, Value := 0,
    LabelName := "", LabelValue := "" }

/-- Embedding of Point.Key: Name when there is no label value, otherwise
    Name, a dot, and the label value (fmt.Sprintf of the two strings). -/
def Point.Key (p : Point) : String :=
  if p.LabelValue = "" then p.Name else p.Name ++ "." ++ p.LabelValue

/-- First-match lookup in an association list; under the store invariant that
    keys never repeat this is the Go map read. -/
def assocLookup : List (String × α) → String → Option α
  | [], _ => none
  | kv :: rest, k => if kv.1 = k then some kv.2 else assocLookup rest k

/-- Go map assignment m[k] = v on an association list: replace the binding in
    place when the key exists, otherwise append a fresh binding. -/
def assocSet : List (String × α) → String → α → List (String × α)
  | [], k, v => [(k, v)]
  | kv :: rest, k, v =>
    if kv.1 = k then (k, v) :: rest else kv :: assocSet rest k v

/-- In-place update of the value stored at a key, leaving everything else
    untouched; a no-op when the key is absent. -/
def assocModify : List (String × α) → String → (α → α) → List (String × α)
  | [], _, _ => []
  | kv :: rest, k, f =>
    if kv.1 = k then (k, f kv.2) :: rest else kv :: assocModify rest k f

/-- Embedding of model.Store: the mutex-protected map from keys to the latest
    Point. Each source operation holds the lock for its whole body, so the
    sequential association-list semantics below is exact per operation. -/
structure Store where
  entries : List (String × Point)
deriving DecidableEq

def Store.empty : Store := ⟨[]⟩

/-- Embedding of ErrPointNotFound, the only store error. -/
inductive StoreErr where
  | ErrPointNotFound : StoreErr
deriving DecidableEq

/-- Embedding of Store.Set: upsert by the point's Key. The source returns an
    always-nil error, elided here. -/
def Store.Set (ps : Store) (p : Point) : Store :=
  ⟨assocSet ps.entries p.Key p⟩

/-- Embedding of Store.Get: the stored point, or the zero Point together
    with ErrPointNotFound when the key is absent. The receiver is not
    mutated. -/
def Store.Get (ps : Store) (name : String) : Point × Option StoreErr :=
  match assocLookup ps.entries name with
  | some p => (p, none)
  | none => (Point.zero, some StoreErr.ErrPointNotFound)

/-- Embedding of Store.Delete. -/
def Store.Delete (ps : Store) (name : String) : Store :=
  ⟨ps.entries.filter (fun kv => !(kv.1 == name))⟩

/-- Embedding of Store.Keys: the key snapshot, sorted lexicographically. -/
def Store.Keys (ps : Store) : List String :=
  (ps.entries.map Prod.fst).mergeSort (fun a b => a ≤ b)

/-- Store invariant: no key occurs twice. Holds for every store reachable by
    the operations above and makes Set a true replacement. -/
def Store.KeysNodup (ps : Store) : Prop :=
  (ps.entries.map Prod.fst).Nodup

/- ===== encoding/json struct decoding helpers ===== -/

/-- ASCII lower-casing, the case folding encoding/json applies when it
    matches JSON keys to struct field tags. -/
def asciiLower (c : Char) : Char :=
  if 65 ≤ c.toNat ∧ c.toNat ≤ 90 then Char.ofNat (c.toNat + 32) else c

/-- Case-insensitive key/tag match of encoding/json (every tag in this code
    base is unique up to case, so the exact-match preference collapses to
    this test). -/
def ciEq (a b : String) : Bool :=
  a.data.map asciiLower == b.data.map asciiLower

def int64Lo : Int := -9223372036854775808

def int64Hi : Int := 9223372036854775807

/-- Decode a JSON value into a string field: strings store, null is a no-op,
    anything else is an unmarshalling error. -/
def updStr (v : Jval) (a : α) (set : α → String → α) : Option α :=
  match v with
  | Jval.str s => some (set a s)
  | Jval.null => some a
  | _ => none

/-- Decode a JSON value into an int64 field: integer literals in range
    store, null is a no-op, fractions, exponents, overflow and other shapes
    are unmarshalling errors — exactly the strconv.ParseInt discipline of
    encoding/json. -/
def updInt (v : Jval) (a : α) (set : α → Int → α) : Option α :=
  match v with
  | Jval.num true n =>
    if int64Lo ≤ n ∧ n ≤ int64Hi then some (set a n) else none
  | Jval.null => some a
  | _ => none

/-- Decode a JSON value into a map from strings to int64: the value must be
    an object (null keeps the map empty); each element follows the int64
    rules, with null elements storing the zero value as the Go map decode
    does. -/
def asIntMap (v : Jval) (init : List (String × Int)) : Option (List (String × Int)) :=
  match v with
  | Jval.obj kvs =>
    kvs.foldlM (fun acc kv =>
      match kv.2 with
      | Jval.num true n =>
        if int64Lo ≤ n ∧ n ≤ int64Hi then some (assocSet acc kv.1 n) else none
      | Jval.null => some (assocSet acc kv.1 0)
      | _ => none) init
  | Jval.null => some init
  | _ => none

/-- Drives json.Unmarshal into a struct: the document must be an object
    (top-level null succeeds and leaves the zero value); keys are folded in
    source order so later duplicates overwrite, unknown keys are ignored by
    the per-struct field function. -/
def decodeStruct (applyField : α → String → Jval → Option α) (dflt : α)
    (buf : String) : Option α :=
  match jsonParse buf with
  | some Jval.null => some dflt
  | some (Jval.obj kvs) => kvs.foldlM (fun a kv => applyField a kv.1 kv.2) dflt
  | _ => none

/- ===== internal/rsyslog decoders ===== -/

/-- Embedding of the action statistics struct. -/
structure action where
  Name : String
  Processed : Int
  Failed : Int
  Suspended : Int
  SuspendedDuration : Int
  Resumed : Int
deriving DecidableEq

def actionApply (a : action) (k : String) (v : Jval) : Option action :=
  if ciEq k "name" then updStr v a (fun a s => { a with Name := s })
  else if ciEq k "processed" then updInt v a (fun a n => { a with Processed := n })
  else if ciEq k "failed" then updInt v a (fun a n => { a with Failed := n })
  else if ciEq k "suspended" then updInt v a (fun a n => { a with Suspended := n })
  else if ciEq k "suspended.duration" then
    updInt v a (fun a n => { a with SuspendedDuration := n })
  else if ciEq k "resumed" then updInt v a (fun a n => { a with Resumed := n })
  else some a

def NewActionFromJSON (b : String) : Option action :=
  decodeStruct actionApply ⟨"", 0, 0, 0, 0, 0⟩ b

def action.ToPoints (a : action) : List Point :=
  [ { Name := "action_processed", Ptype := PointType.Counter, Value := a.Processed,
      Description := "messages processed", LabelName := "action", LabelValue := a.Name },
    { Name := "action_failed", Ptype := PointType.Counter, Value := a.Failed,
      Description := "messages failed", LabelName := "action", LabelValue := a.Name },
    { Name := "action_suspended", Ptype := PointType.Counter, Value := a.Suspended,
      Description := "times suspended", LabelName := "action", LabelValue := a.Name },
    { Name := "action_suspended_duration", Ptype := PointType.Counter,
      Value := a.SuspendedDuration, Description := "time spent suspended",
      LabelName := "action", LabelValue := a.Name },
    { Name := "action_resumed", Ptype := PointType.Counter, Value := a.Resumed,
      Description := "times resumed", LabelName := "action", LabelValue := a.Name } ]

/-- Embedding of the generic Input statistics struct. -/
structure Input where
  Name : String
  Submitted : Int
deriving DecidableEq

def inputApply (a : Input) (k : String) (v : Jval) : Option Input :=
  if ciEq k "name" then updStr v a (fun a s => { a with Name := s })
  else if ciEq k "submitted" then updInt v a (fun a n => { a with Submitted := n })
  else some a

def NewInputFromJSON (b : String) : Option Input :=
  decodeStruct inputApply ⟨"", 0⟩ b

def Input.ToPoints (i : Input) : List Point :=
  [ { Name := "input_submitted", Ptype := PointType.Counter, Value := i.Submitted,
      Description := "messages submitted", LabelName := "input", LabelValue := i.Name } ]

/-- Embedding of the imudp input worker statistics struct. -/
structure InputIMUDP where
  Name : String
  Recvmmsg : Int
  Recvmsg : Int
  Received : Int
deriving DecidableEq

def inputIMUDPApply (a : InputIMUDP) (k : String) (v : Jval) : Option InputIMUDP :=
  if ciEq k "name" then updStr v a (fun a s => { a with Name := s })
  else if ciEq k "called.recvmmsg" then updInt v a (fun a n => { a with Recvmmsg := n })
  else if ciEq k "called.recvmsg" then updInt v a (fun a n => { a with Recvmsg := n })
  else if ciEq k "msgs.received" then updInt v a (fun a n => { a with Received := n })
  else some a

def NewInputIMUDPFromJSON (b : String) : Option InputIMUDP :=
  decodeStruct inputIMUDPApply ⟨"", 0, 0, 0⟩ b

def InputIMUDP.ToPoints (i : InputIMUDP) : List Point :=
  [ { Name := "input_called_recvmmsg", Ptype := PointType.Counter, Value := i.Recvmmsg,
      Description := "Number of recvmmsg called", LabelName := "worker", LabelValue := i.Name },
    { Name := "input_called_recvmsg", Ptype := PointType.Counter, Value := i.Recvmsg,
      Description := "Number of recvmsg called", LabelName := "worker", LabelValue := i.Name },
    { Name := "input_received", Ptype := PointType.Counter, Value := i.Received,
      Description := "messages received", LabelName := "worker", LabelValue := i.Name } ]

/-- Embedding of the Queue statistics struct. -/
structure Queue where
  Name : String
  Size : Int
  Enqueued : Int
  Full : Int
  DiscardedFull : Int
  DiscardedNf : Int
  MaxQsize : Int
deriving DecidableEq

def queueApply (a : Queue) (k : String) (v : Jval) : Option Queue :=
  if ciEq k "name" then updStr v a (fun a s => { a with Name := s })
  else if ciEq k "size" then updInt v a (fun a n => { a with Size := n })
  else if ciEq k "enqueued" then updInt v a (fun a n => { a with Enqueued := n })
  else if ciEq k "full" then updInt v a (fun a n => { a with Full := n })
  else if ciEq k "discarded.full" then updInt v a (fun a n => { a with DiscardedFull := n })
  else if ciEq k "discarded.nf" then updInt v a (fun a n => { a with DiscardedNf := n })
  else if ciEq k "maxqsize" then updInt v a (fun a n => { a with MaxQsize := n })
  else some a

def NewQueueFromJSON (b : String) : Option Queue :=
  decodeStruct queueApply ⟨"", 0, 0, 0, 0, 0, 0⟩ b

def Queue.ToPoints (q : Queue) : List Point :=
  [ { Name := "queue_size", Ptype := PointType.Gauge, Value := q.Size,
      Description := "messages currently in queue", LabelName := "queue", LabelValue := q.Name },
    { Name := "queue_enqueued", Ptype := PointType.Counter, Value := q.Enqueued,
      Description := "total messages enqueued", LabelName := "queue", LabelValue := q.Name },
    { Name := "queue_full", Ptype := PointType.Counter, Value := q.Full,
      Description := "times queue was full", LabelName := "queue", LabelValue := q.Name },
    { Name := "queue_discarded_full", Ptype := PointType.Counter, Value := q.DiscardedFull,
      Description := "messages discarded due to queue being full",
      LabelName := "queue", LabelValue := q.Name },
    { Name := "queue_discarded_not_full", Ptype := PointType.Counter, Value := q.DiscardedNf,
      Description := "messages discarded when queue not full",
      LabelName := "queue", LabelValue := q.Name },
    { Name := "queue_max_size", Ptype := PointType.Gauge, Value := q.MaxQsize,
      Description := "maximum size queue has reached", LabelName := "queue",
      LabelValue := q.Name } ]

/-- Embedding of the resource usage statistics struct. -/
structure resource where
  Name : String
  Utime : Int
  Stime : Int
  Maxrss : Int
  Minflt : Int
  Majflt : Int
  Inblock : Int
  Outblock : Int
  Nvcsw : Int
  Nivcsw : Int
deriving DecidableEq

def resourceApply (a : resource) (k : String) (v : Jval) : Option resource :=
  if ciEq k "name" then updStr v a (fun a s => { a with Name := s })
  else if ciEq k "utime" then updInt v a (fun a n => { a with Utime := n })
  else if ciEq k "stime" then updInt v a (fun a n => { a with Stime := n })
  else if ciEq k "maxrss" then updInt v a (fun a n => { a with Maxrss := n })
  else if ciEq k "minflt" then updInt v a (fun a n => { a with Minflt := n })
  else if ciEq k "majflt" then updInt v a (fun a n => { a with Majflt := n })
  else if ciEq k "inblock" then updInt v a (fun a n => { a with Inblock := n })
  else if ciEq k "oublock" then updInt v a (fun a n => { a with Outblock := n })
  else if ciEq k "nvcsw" then updInt v a (fun a n => { a with Nvcsw := n })
  else if ciEq k "nivcsw" then updInt v a (fun a n => { a with Nivcsw := n })
  else some a

def NewResourceFromJSON (b : String) : Option resource :=
  decodeStruct resourceApply ⟨"", 0, 0, 0, 0, 0, 0, 0, 0, 0⟩ b

def resource.ToPoints (r : resource) : List Point :=
  [ { Name := "resource_utime", Ptype := PointType.Counter, Value := r.Utime,
      Description := "user time used in microseconds", LabelName := "resource",
      LabelValue := r.Name },
    { Name := "resource_stime", Ptype := PointType.Counter, Value := r.Stime,
      Description := "system time used in microsends", LabelName := "resource",
      LabelValue := r.Name },
    { Name := "resource_maxrss", Ptype := PointType.Gauge, Value := r.Maxrss,
      Description := "maximum resident set size", LabelName := "resource",
      LabelValue := r.Name },
    { Name := "resource_minflt", Ptype := PointType.Counter, Value := r.Minflt,
      Description := "total minor faults", LabelName := "resource", LabelValue := r.Name },
    { Name := "resource_majflt", Ptype := PointType.Counter, Value := r.Majflt,
      Description := "total major faults", LabelName := "resource", LabelValue := r.Name },
    { Name := "resource_inblock", Ptype := PointType.Counter, Value := r.Inblock,
      Description := "filesystem input operations", LabelName := "resource",
      LabelValue := r.Name },
    { Name := "resource_oublock", Ptype := PointType.Counter, Value := r.Outblock,
      Description := "filesystem output operations", LabelName := "resource",
      LabelValue := r.Name },
    { Name := "resource_nvcsw", Ptype := PointType.Counter, Value := r.Nvcsw,
      Description := "voluntary context switches", LabelName := "resource",
      LabelValue := r.Name },
    { Name := "resource_nivcsw", Ptype := PointType.Counter, Value := r.Nivcsw,
      Description := "involuntary context switches", LabelName := "resource",
      LabelValue := r.Name } ]

/-- Embedding of the DynStat struct: a named bucket with a nested counter
    map. Values is the decoded map as an association list in JSON source
    order with unique keys; the Go map itself carries no order. -/
structure DynStat where
  Name : String
  Origin : String
  Values : List (String × Int)
deriving DecidableEq

def dynStatApply (a : DynStat) (k : String) (v : Jval) : Option DynStat :=
  if ciEq k "name" then updStr v a (fun a s => { a with Name := s })
  else if ciEq k "origin" then updStr v a (fun a s => { a with Origin := s })
  else if ciEq k "values" then (asIntMap v a.Values).map (fun m => { a with Values := m })
  else some a

def NewDynStatFromJSON (b : String) : Option DynStat :=
  decodeStruct dynStatApply ⟨"", "", []⟩ b

/-- Embedding of DynStat.ToPoints. The source iterates the Values map with a
    range loop whose order the Go runtime does not fix, so the embedding
    takes the iteration order as an explicit argument; a valid order is any
    permutation of the decoded entries. -/
def DynStat.ToPointsOrd (i : DynStat) (ord : List (String × Int)) : List Point :=
  ord.map (fun kv =>
    { Name := "dynstat_" ++ i.Name, Ptype := PointType.Counter, Value := kv.2,
      Description := "dynamic statistic bucket " ++ i.Name,
      LabelName := "counter", LabelValue := kv.1 })

/-- Embedding of the dynafile cache statistics struct. -/
structure DfcStat where
  Name : String
  Origin : String
  Requests : Int
  Level0 : Int
  Missed : Int
  Evicted : Int
  MaxUsed : Int
  CloseTimeouts : Int
deriving DecidableEq

def dfcApply (a : DfcStat) (k : String) (v : Jval) : Option DfcStat :=
  if ciEq k "name" then updStr v a (fun a s => { a with Name := s })
  else if ciEq k "origin" then updStr v a (fun a s => { a with Origin := s })
  else if ciEq k "requests" then updInt v a (fun a n => { a with Requests := n })
  else if ciEq k "level0" then updInt v a (fun a n => { a with Level0 := n })
  else if ciEq k "missed" then updInt v a (fun a n => { a with Missed := n })
  else if ciEq k "evicted" then updInt v a (fun a n => { a with Evicted := n })
  else if ciEq k "maxused" then updInt v a (fun a n => { a with MaxUsed := n })
  else if ciEq k "closetimeouts" then updInt v a (fun a n => { a with CloseTimeouts := n })
  else some a

/-- Embedding of NewDynafileCacheFromJSON: decode, then strip the fixed
    literal prefix from the cache name. -/
def NewDynafileCacheFromJSON (b : String) : Option DfcStat :=
  (decodeStruct dfcApply ⟨"", "", 0, 0, 0, 0, 0, 0⟩ b).map
    (fun d => { d with Name := goTrimPre d.Name "dynafile cache " })

def DfcStat.ToPoints (d : DfcStat) : List Point :=
  [ { Name := "dynafile_cache_requests", Ptype := PointType.Counter, Value := d.Requests,
      Description := "number of requests made to obtain a dynafile",
      LabelName := "cache", LabelValue := d.Name },
    { Name := "dynafile_cache_level0", Ptype := PointType.Counter, Value := d.Level0,
      Description := "number of requests for the current active file",
      LabelName := "cache", LabelValue := d.Name },
    { Name := "dynafile_cache_missed", Ptype := PointType.Counter, Value := d.Missed,
      Description := "number of cache misses", LabelName := "cache", LabelValue := d.Name },
    { Name := "dynafile_cache_evicted", Ptype := PointType.Counter, Value := d.Evicted,
      Description := "number of times a file needed to be evicted from cache",
      LabelName := "cache", LabelValue := d.Name },
    { Name := "dynafile_cache_maxused", Ptype := PointType.Counter, Value := d.MaxUsed,
      Description := "maximum number of cache entries ever used",
      LabelName := "cache", LabelValue := d.Name },
    { Name := "dynafile_cache_closetimeouts", Ptype := PointType.Counter,
      Value := d.CloseTimeouts,
      Description := "number of times a file was closed due to timeout settings",
      LabelName := "cache", LabelValue := d.Name } ]

/-- Embedding of the Forward statistics struct. -/
structure Forward where
  Name : String
  BytesSent : Int
deriving DecidableEq

def forwardApply (a : Forward) (k : String) (v : Jval) : Option Forward :=
  if ciEq k "name" then updStr v a (fun a s => { a with Name := s })
  else if ciEq k "bytes.sent" then updInt v a (fun a n => { a with BytesSent := n })
  else some a

def NewForwardFromJSON (b : String) : Option Forward :=
  decodeStruct forwardApply ⟨"", 0⟩ b

def Forward.ToPoints (f : Forward) : List Point :=
  [ { Name := "forward_bytes_total", Ptype := PointType.Counter, Value := f.BytesSent,
      Description := "bytes forwarded to destination", LabelName := "destination",
      LabelValue := f.Name } ]

/- ===== the kubernetes decoder (cmd/rsyslog_exporter) ===== -/

/-- Whitespace class of the RE2 escape used in apiNameRegexp: tab, line
    feed, form feed, carriage return and space; \S matches any character
    outside this set. -/
def reSpace (c : Char) : Bool :=
  ['\t', '\n', '\x0c', '\r', ' '].contains c

/-- The literal head of apiNameRegexp. -/
def kubeLit : List Char := "mmkubernetes(".data

/-- Splits a character run around its last close parenthesis: returns the
    part before it and the part after it, or none when the run holds no
    close parenthesis. -/
def lastClose : List Char → Option (List Char × List Char)
  | [] => none
  | c :: cs =>
    match lastClose cs with
    | some (p, q) => some (c :: p, q)
    | none => if c = ')' then some ([], cs) else none

/-- One anchored attempt of apiNameRegexp, which is mmkubernetes and an open
    parenthesis, a greedy nonempty run of non-space characters, and a close
    parenthesis: after the literal, the greedy capture extends to the last
    close parenthesis inside the maximal non-space run and must be
    nonempty. -/
def kubeMatchAt (s : List Char) : Option (List Char) :=
  if kubeLit.isPrefixOf s then
    match lastClose ((s.drop kubeLit.length).takeWhile (fun c => !reSpace c)) with
    | some (pre, _) => if pre = [] then none else some pre
    | none => none
  else none

/-- Leftmost match of apiNameRegexp: attempt every start position from the
    left, as the RE2 engine does. -/
def kubeFindCapture : List Char → Option (List Char)
  | [] => none
  | c :: cs =>
    match kubeMatchAt (c :: cs) with
    | some cap => some cap
    | none => kubeFindCapture cs

/-- Embedding of the kubernetes statistics struct. The Url field carries no
    JSON tag in the source, so encoding/json matches it case-insensitively
    by its field name before NewKubernetesFromJSON overwrites it from the
    regular expression capture. -/
structure kubernetes where
  Name : String
  Url : String
  RecordSeen : Int
  NamespaceMetaSuccess : Int
  NamespaceMetaNotFound : Int
  NamespaceMetaBusy : Int
  NamespaceMetaError : Int
  PodMetaSuccess : Int
  PodMetaNotFound : Int
  PodMetaBusy : Int
  PodMetaError : Int
deriving DecidableEq

def kubernetesApply (a : kubernetes) (k : String) (v : Jval) : Option kubernetes :=
  if ciEq k "name" then updStr v a (fun a s => { a with Name := s })
  else if ciEq k "Url" then updStr v a (fun a s => { a with Url := s })
  else if ciEq k "recordseen" then updInt v a (fun a n => { a with RecordSeen := n })
  else if ciEq k "namespacemetadatasuccess" then
    updInt v a (fun a n => { a with NamespaceMetaSuccess := n })
  else if ciEq k "namespacemetadatanotfound" then
    updInt v a (fun a n => { a with NamespaceMetaNotFound := n })
  else if ciEq k "namespacemetadatabusy" then
    updInt v a (fun a n => { a with NamespaceMetaBusy := n })
  else if ciEq k "namespacemetadataerror" then
    updInt v a (fun a n => { a with NamespaceMetaError := n })
  else if ciEq k "podmetadatasuccess" then
    updInt v a (fun a n => { a with PodMetaSuccess := n })
  else if ciEq k "podmetadatanotfound" then
    updInt v a (fun a n => { a with PodMetaNotFound := n })
  else if ciEq k "podmetadatabusy" then
    updInt v a (fun a n => { a with PodMetaBusy := n })
  else if ciEq k "podmetadataerror" then
    updInt v a (fun a n => { a with PodMetaError := n })
  else some a

/-- The FindSubmatch step of NewKubernetesFromJSON: when apiNameRegexp
    matches the name, overwrite Url with the capture, otherwise leave the
    decoded Url alone. -/
def kubernetes.withUrl (k : kubernetes) : kubernetes :=
  match kubeFindCapture k.Name.data with
  | some cap => { k with Url := String.mk cap }
  | none => k

def kubernetesZero : kubernetes :=
  ⟨"", "", 0, 0, 0, 0, 0, 0, 0, 0, 0⟩

def NewKubernetesFromJSON (b : String) : Option kubernetes :=
  (decodeStruct kubernetesApply kubernetesZero b).map kubernetes.withUrl

def kubernetes.ToPoints (k : kubernetes) : List Point :=
  [ { Name := "kubernetes_namespace_metadata_success_total", Ptype := PointType.Counter,
      Value := k.NamespaceMetaSuccess, Description := "successful fetches of namespace metadata",
      LabelName := "url", LabelValue := k.Url },
    { Name := "kubernetes_namespace_metadata_notfound_total", Ptype := PointType.Counter,
      Value := k.NamespaceMetaNotFound, Description := "notfound fetches of namespace metadata",
      LabelName := "url", LabelValue := k.Url },
    { Name := "kubernetes_namespace_metadata_busy_total", Ptype := PointType.Counter,
      Value := k.NamespaceMetaBusy, Description := "busy fetches of namespace metadata",
      LabelName := "url", LabelValue := k.Url },
    { Name := "kubernetes_namespace_metadata_error_total", Ptype := PointType.Counter,
      Value := k.NamespaceMetaError, Description := "error fetches of namespace metadata",
      LabelName := "url", LabelValue := k.Url },
    { Name := "kubernetes_pod_metadata_success_total", Ptype := PointType.Counter,
      Value := k.PodMetaSuccess, Description := "successful fetches of pod metadata",
      LabelName := "url", LabelValue := k.Url },
    { Name := "kubernetes_pod_metadata_notfound_total", Ptype := PointType.Counter,
      Value := k.PodMetaNotFound, Description := "notfound fetches of pod metadata",
      LabelName := "url", LabelValue := k.Url },
    { Name := "kubernetes_pod_metadata_busy_total", Ptype := PointType.Counter,
      Value := k.PodMetaBusy, Description := "busy fetches of pod metadata",
      LabelName := "url", LabelValue := k.Url },
    { Name := "kubernetes_pod_metadata_error_total", Ptype := PointType.Counter,
      Value := k.PodMetaError, Description := "error fetches of pod metadata",
      LabelName := "url", LabelValue := k.Url },
    { Name := "kubernetes_record_seen_total", Ptype := PointType.Counter,
      Value := k.RecordSeen, Description := "records fetched from the api",
      LabelName := "url", LabelValue := k.Url } ]

/- ===== the KafkaOutput decoder ===== -/

/-- Modelled from the spec: the KafkaOutput decoder source file is absent
    from the provided sources (only its tests and its dispatch-table entry
    appear). Spec section 4.2 specifies a larger fixed set of roughly twenty
    points covering submitted, failure, error and latency counters, with one
    point intentionally aliasing the generic Input metric name; the decoder
    test fixture pins the field names and the point list reproduced here. -/
structure Omkafka where
  Name : String
  Submitted : Int
  MaxOutQSize : Int
  Failures : Int
  TopicDynacacheSkipped : Int
  TopicDynacacheMiss : Int
  TopicDynacacheEvicted : Int
  Acked : Int
  FailuresMsgTooLarge : Int
  FailuresUnknownTopic : Int
  FailuresQueueFull : Int
  FailuresUnknownPartition : Int
  FailuresOther : Int
  ErrorsTimedOut : Int
  ErrorsTransport : Int
  ErrorsBrokerDown : Int
  ErrorsAuth : Int
  ErrorsSsl : Int
  ErrorsOther : Int
  RttAvgUsec : Int
  ThrottleAvgMsec : Int
  IntLatencyAvgUsec : Int
deriving DecidableEq

def omkafkaApply (a : Omkafka) (k : String) (v : Jval) : Option Omkafka :=
  if ciEq k "name" then updStr v a (fun a s => { a with Name := s })
  else if ciEq k "submitted" then updInt v a (fun a n => { a with Submitted := n })
  else if ciEq k "maxoutqsize" then updInt v a (fun a n => { a with MaxOutQSize := n })
  else if ciEq k "failures" then updInt v a (fun a n => { a with Failures := n })
  else if ciEq k "topicdynacache.skipped" then
    updInt v a (fun a n => { a with TopicDynacacheSkipped := n })
  else if ciEq k "topicdynacache.miss" then
    updInt v a (fun a n => { a with TopicDynacacheMiss := n })
  else if ciEq k "topicdynacache.evicted" then
    updInt v a (fun a n => { a with TopicDynacacheEvicted := n })
  else if ciEq k "acked" then updInt v a (fun a n => { a with Acked := n })
  else if ciEq k "failures_msg_too_large" then
    updInt v a (fun a n => { a with FailuresMsgTooLarge := n })
  else if ciEq k "failures_unknown_topic" then
    updInt v a (fun a n => { a with FailuresUnknownTopic := n })
  else if ciEq k "failures_queue_full" then
    updInt v a (fun a n => { a with FailuresQueueFull := n })
  else if ciEq k "failures_unknown_partition" then
    updInt v a (fun a n => { a with FailuresUnknownPartition := n })
  else if ciEq k "failures_other" then updInt v a (fun a n => { a with FailuresOther := n })
  else if ciEq k "errors_timed_out" then updInt v a (fun a n => { a with ErrorsTimedOut := n })
  else if ciEq k "errors_transport" then updInt v a (fun a n => { a with ErrorsTransport := n })
  else if ciEq k "errors_broker_down" then updInt v a (fun a n => { a with ErrorsBrokerDown := n })
  else if ciEq k "errors_auth" then updInt v a (fun a n => { a with ErrorsAuth := n })
  else if ciEq k "errors_ssl" then updInt v a (fun a n => { a with ErrorsSsl := n })
  else if ciEq k "errors_other" then updInt v a (fun a n => { a with ErrorsOther := n })
  else if ciEq k "rtt_avg_usec" then updInt v a (fun a n => { a with RttAvgUsec := n })
  else if ciEq k "throttle_avg_msec" then updInt v a (fun a n => { a with ThrottleAvgMsec := n })
  else if ciEq k "int_latency_avg_usec" then
    updInt v a (fun a n => { a with IntLatencyAvgUsec := n })
  else some a

def omkafkaZero : Omkafka :=
  ⟨"", 0, 0, 0, 0, 0, 0, 0, 0, 0, 0, 0, 0, 0, 0, 0, 0, 0, 0, 0, 0, 0⟩

/-- Modelled from the spec: see the Omkafka struct. -/
def NewOmkafkaFromJSON (b : String) : Option Omkafka :=
  decodeStruct omkafkaApply omkafkaZero b

/-- Modelled from the spec: the KafkaOutput point list, pinned by the
    decoder test fixture (the label name is not pinned there and is chosen
    as "stat"). -/
def Omkafka.ToPoints (o : Omkafka) : List Point :=
  [ { Name := "input_submitted", Ptype := PointType.Counter, Value := o.Submitted,
      Description := "messages submitted", LabelName := "stat", LabelValue := o.Name },
    { Name := "omkafka_messages", Ptype := PointType.Counter, Value := o.Submitted,
      Description := "omkafka messages", LabelName := "stat", LabelValue := "submitted" },
    { Name := "omkafka_maxoutqsize", Ptype := PointType.Counter, Value := o.MaxOutQSize,
      Description := "omkafka max out queue size", LabelName := "stat", LabelValue := "" },
    { Name := "omkafka_messages", Ptype := PointType.Counter, Value := o.Failures,
      Description := "omkafka messages", LabelName := "stat", LabelValue := "failures" },
    { Name := "omkafka_topicdynacache", Ptype := PointType.Counter,
      Value := o.TopicDynacacheSkipped, Description := "omkafka topic dynacache",
      LabelName := "stat", LabelValue := "skipped" },
    { Name := "omkafka_topicdynacache", Ptype := PointType.Counter,
      Value := o.TopicDynacacheMiss, Description := "omkafka topic dynacache",
      LabelName := "stat", LabelValue := "miss" },
    { Name := "omkafka_topicdynacache", Ptype := PointType.Counter,
      Value := o.TopicDynacacheEvicted, Description := "omkafka topic dynacache",
      LabelName := "stat", LabelValue := "evicted" },
    { Name := "omkafka_messages", Ptype := PointType.Counter, Value := o.Acked,
      Description := "omkafka messages", LabelName := "stat", LabelValue := "acked" },
    { Name := "omkafka_failures", Ptype := PointType.Counter, Value := o.FailuresMsgTooLarge,
      Description := "omkafka failures", LabelName := "stat", LabelValue := "msg_too_large" },
    { Name := "omkafka_failures", Ptype := PointType.Counter, Value := o.FailuresUnknownTopic,
      Description := "omkafka failures", LabelName := "stat", LabelValue := "unknown_topic" },
    { Name := "omkafka_failures", Ptype := PointType.Counter, Value := o.FailuresQueueFull,
      Description := "omkafka failures", LabelName := "stat", LabelValue := "queue_full" },
    { Name := "omkafka_failures", Ptype := PointType.Counter,
      Value := o.FailuresUnknownPartition, Description := "omkafka failures",
      LabelName := "stat", LabelValue := "unknown_partition" },
    { Name := "omkafka_failures", Ptype := PointType.Counter, Value := o.FailuresOther,
      Description := "omkafka failures", LabelName := "stat", LabelValue := "other" },
    { Name := "omkafka_errors", Ptype := PointType.Counter, Value := o.ErrorsTimedOut,
      Description := "omkafka errors", LabelName := "stat", LabelValue := "timed_out" },
    { Name := "omkafka_errors", Ptype := PointType.Counter, Value := o.ErrorsTransport,
      Description := "omkafka errors", LabelName := "stat", LabelValue := "transport" },
    { Name := "omkafka_errors", Ptype := PointType.Counter, Value := o.ErrorsBrokerDown,
      Description := "omkafka errors", LabelName := "stat", LabelValue := "broker_down" },
    { Name := "omkafka_errors", Ptype := PointType.Counter, Value := o.ErrorsAuth,
      Description := "omkafka errors", LabelName := "stat", LabelValue := "auth" },
    { Name := "omkafka_errors", Ptype := PointType.Counter, Value := o.ErrorsSsl,
      Description := "omkafka errors", LabelName := "stat", LabelValue := "ssl" },
    { Name := "omkafka_errors", Ptype := PointType.Counter, Value := o.ErrorsOther,
      Description := "omkafka errors", LabelName := "stat", LabelValue := "other" },
    { Name := "omkafka_rtt_avg_usec_avg", Ptype := PointType.Gauge, Value := o.RttAvgUsec,
      Description := "omkafka round trip time average", LabelName := "stat", LabelValue := "" },
    { Name := "omkafka_throttle_avg_msec_avg", Ptype := PointType.Gauge,
      Value := o.ThrottleAvgMsec, Description := "omkafka throttle average",
      LabelName := "stat", LabelValue := "" },
    { Name := "omkafka_int_latency_avg_usec_avg", Ptype := PointType.Gauge,
      Value := o.IntLatencyAvgUsec, Description := "omkafka internal latency average",
      LabelName := "stat", LabelValue := "" } ]

/- ===== internal/exporter/exporter.go ===== -/

/-- Errors of one handleStatLine call: the split failure with the observed
    field count, the missing-decoder failure with the detected kind, and the
    per-kind decode failure (whose payload and cause are elided). -/
inductive LineError where
  | splitError : Nat → LineError
  | unknownType : Ty → LineError
  | decodeError : LineError
deriving DecidableEq

/-- Embedding of the statDecoders dispatch table: each registered kind maps
    to its decoding function; TypeUnknown has no entry. The DynStat decoder
    iterates its counter map in the decoded entry order; any other iteration
    order permutes the point list but reaches the same store because the
    point keys are distinct. -/
def statDecoders (t : Ty) : Option (String → Option (List Point)) :=
  match t with
  | Ty.TypeAction => some (fun b => (NewActionFromJSON b).map action.ToPoints)
  | Ty.TypeInput => some (fun b => (NewInputFromJSON b).map Input.ToPoints)
  | Ty.TypeInputIMDUP => some (fun b => (NewInputIMUDPFromJSON b).map InputIMUDP.ToPoints)
  | Ty.TypeQueue => some (fun b => (NewQueueFromJSON b).map Queue.ToPoints)
  | Ty.TypeResource => some (fun b => (NewResourceFromJSON b).map resource.ToPoints)
  | Ty.TypeDynStat =>
    some (fun b => (NewDynStatFromJSON b).map (fun d => d.ToPointsOrd d.Values))
  | Ty.TypeDynafileCache =>
    some (fun b => (NewDynafileCacheFromJSON b).map DfcStat.ToPoints)
  | Ty.TypeForward => some (fun b => (NewForwardFromJSON b).map Forward.ToPoints)
  | Ty.TypeKubernetes => some (fun b => (NewKubernetesFromJSON b).map kubernetes.ToPoints)
  | Ty.TypeOmkafka => some (fun b => (NewOmkafkaFromJSON b).map Omkafka.ToPoints)
  | Ty.TypeUnknown => none

/-- The classify-decode-store tail of handleStatLine, applied to the payload
    obtained from the split. -/
def handleStatPayload (st : Store) (buf : String) : Except LineError Store :=
  match statDecoders (GetStatType buf) with
  | none => Except.error (LineError.unknownType (GetStatType buf))
  | some dec =>
    match dec buf with
    | none => Except.error LineError.decodeError
    | some points => Except.ok (points.foldl Store.Set st)

/-- Embedding of Exporter.handleStatLine: split the raw line around single
    spaces into at most 4 fields, fail with the split error unless exactly 4
    came back, then hand the 4th field to classification and decoding. -/
def handleStatLine (st : Store) (raw : String) : Except LineError Store :=
  let s := goSplitN raw.data ' ' 4
  if s.length = 4 then handleStatPayload st (String.mk (s.getD 3 []))
  else Except.error (LineError.splitError s.length)

/-- The error-counter point installed at the top of Exporter.run. -/
def errorPoint : Point :=
  { Name := "stats_line_errors", Ptype := PointType.Counter, Value := 0,
    Description := "Counts errors during stats line handling",
    LabelName := "", LabelValue := "" }

/-- The errorPoint.Value increment of Exporter.run. The source mutates the
    point through the pointer stored in the map at the start of run, so the
    store entry under the error-counter key is updated in place; no decoder
    ever produces that key, so the stored pointer always aliases errorPoint
    and the in-place map update is its exact store-level effect. -/
def bumpErrCounter (st : Store) : Store :=
  ⟨assocModify st.entries "stats_line_errors" (fun p => { p with Value := p.Value + 1 })⟩

/-- One iteration of the scan loop of Exporter.run, threading the store and
    the list of emitted diagnostics (each recorded as the offending line):
    a failing line increments the error counter and, unless silent, emits a
    diagnostic; a successful line replaces the store. -/
def runStep (silent : Bool) (acc : Store × List String) (line : String) :
    Store × List String :=
  match handleStatLine acc.1 line with
  | Except.ok st => (st, acc.2)
  | Except.error _ => (bumpErrCounter acc.1, if silent then acc.2 else acc.2 ++ [line])

/-- The scan loop of Exporter.run over the lines the scanner delivers,
    followed by the scanner error check: the terminal stream condition is
    none at end of input and some error message otherwise, and run returns
    exactly that. -/
def runLoop (silent : Bool) (acc : Store × List String) :
    List String → Option String → (Store × List String) × Option String
  | [], term => (acc, term)
  | l :: ls, term => runLoop silent (runStep silent acc l) ls term

/-- Embedding of Exporter.run (and of Run, which merely forwards): install
    the error-counter point, scan every delivered line, then return the
    scanner's terminal error, nil at a clean end of stream. -/
def run (silent : Bool) (lines : List String) (term : Option String) :
    (Store × List String) × Option String :=
  runLoop silent (Store.Set Store.empty errorPoint, []) lines term

/- ===== association list lemmas ===== -/

theorem assocSet_keys (l : List (String × α)) (k : String) (v : α) :
    (assocSet l k v).map Prod.fst =
      if k ∈ l.map Prod.fst then l.map Prod.fst else l.map Prod.fst ++ [k] := by
  induction l with
  | nil => simp [assocSet]
  | cons kv rest ih =>
    by_cases h : kv.1 = k
    · simp [assocSet, h]
    · simp only [assocSet, if_neg h, List.map_cons, ih]
      have hne : ¬ (k = kv.1) := fun he => h he.symm
      by_cases hmem : k ∈ rest.map Prod.fst
      · simp [hmem, hne]
      · simp [hmem, hne]

theorem assocSet_nodupKeys (l : List (String × α)) (k : String) (v : α)
    (h : (l.map Prod.fst).Nodup) : ((assocSet l k v).map Prod.fst).Nodup := by
  rw [assocSet_keys]
  by_cases hmem : k ∈ l.map Prod.fst
  · simpa [hmem] using h
  · simp only [if_neg hmem]
    exact List.Nodup.append h (List.nodup_singleton k) (by simpa using hmem)

theorem mem_assocSet_keys (l : List (String × α)) (k : String) (v : α) :
    k ∈ (assocSet l k v).map Prod.fst := by
  rw [assocSet_keys]
  by_cases hmem : k ∈ l.map Prod.fst
  · simp [hmem]
  · simp [hmem]

theorem assocLookup_set_self (l : List (String × α)) (k : String) (v : α) :
    assocLookup (assocSet l k v) k = some v := by
  induction l with
  | nil => simp [assocSet, assocLookup]
  | cons kv rest ih =>
    by_cases h : kv.1 = k
    · simp [assocSet, h, assocLookup]
    · simp [assocSet, h, assocLookup, ih]

theorem assocLookup_set_ne (l : List (String × α)) (k k2 : String) (v : α)
    (h : k2 ≠ k) : assocLookup (assocSet l k v) k2 = assocLookup l k2 := by
  have hkk : ¬ (k = k2) := fun he => h he.symm
  induction l with
  | nil => simp [assocSet, assocLookup, hkk]
  | cons kv rest ih =>
    by_cases hh : kv.1 = k
    · simp [assocSet, hh, assocLookup, hkk]
    · simp only [assocSet, if_neg hh, assocLookup, ih]

theorem assocModify_keys (l : List (String × α)) (k : String) (f : α → α) :
    (assocModify l k f).map Prod.fst = l.map Prod.fst := by
  induction l with
  | nil => simp [assocModify]
  | cons kv rest ih =>
    by_cases h : kv.1 = k
    · simp [assocModify, h]
    · simp [assocModify, h, ih]

theorem assocLookup_modify_self (l : List (String × α)) (k : String) (f : α → α)
    (v : α) (h : assocLookup l k = some v) :
    assocLookup (assocModify l k f) k = some (f v) := by
  induction l with
  | nil => simp [assocLookup] at h
  | cons kv rest ih =>
    by_cases hh : kv.1 = k
    · simp only [assocLookup, if_pos hh] at h
      have hv : kv.2 = v := by injection h
      simp [assocModify, hh, assocLookup, hv]
    · simp only [assocLookup, if_neg hh] at h
      simp [assocModify, hh, assocLookup, ih h]

theorem assocLookup_modify_ne (l : List (String × α)) (k k2 : String) (f : α → α)
    (h : k2 ≠ k) : assocLookup (assocModify l k f) k2 = assocLookup l k2 := by
  have hkk : ¬ (k = k2) := fun he => h he.symm
  induction l with
  | nil => simp [assocModify]
  | cons kv rest ih =>
    by_cases hh : kv.1 = k
    · simp [assocModify, hh, assocLookup, hkk]
    · simp only [assocModify, if_neg hh, assocLookup, ih]

theorem filter_key_nil (l : List (String × α)) (k : String)
    (h : k ∉ l.map Prod.fst) : l.filter (fun e => e.1 == k) = [] := by
  induction l with
  | nil => simp
  | cons kv rest ih =>
    simp only [List.map_cons, List.mem_cons, not_or] at h
    have hne : ¬ kv.1 = k := fun he => h.1 he.symm
    have hb : (kv.1 == k) = false := by simpa using hne
    simp [List.filter, hb, ih h.2]

theorem filter_key_single (l : List (String × α)) (k : String) (v : α)
    (hnd : (l.map Prod.fst).Nodup) (hl : assocLookup l k = some v) :
    l.filter (fun e => e.1 == k) = [(k, v)] := by
  induction l with
  | nil => simp [assocLookup] at hl
  | cons kv rest ih =>
    obtain ⟨a, b⟩ := kv
    simp only [List.map_cons, List.nodup_cons] at hnd
    simp only [assocLookup] at hl
    by_cases hh : a = k
    · subst hh
      simp only [if_pos rfl] at hl
      injection hl with hlv
      subst hlv
      simp [List.filter_cons, filter_key_nil rest a hnd.1]
    · rw [if_neg hh] at hl
      have hb : (a == k) = false := by simpa using hh
      simp [List.filter_cons, hb, ih hnd.2 hl]

/- ===== claim C1 ===== -/

/-- C1: every payload containing the substring "processed" anywhere is
    classified as the Action kind by StatType, short-circuiting the JSON
    name rules and the substring heuristics. -/
theorem C1_processed_shortcircuit (buf : String)
    (h : goContains buf "processed" = true) : StatType buf = Ty.TypeAction := by
  simp [StatType, h]

/-- Witness for C1 at a concrete payload whose JSON name field would match
    the omkafka rule. -/
theorem C1_processed_shortcircuit_witness :
    goContains "\x7b\"name\":\"omkafka\",\"processed\":1\x7d" "processed" = true ∧
    StatType "\x7b\"name\":\"omkafka\",\"processed\":1\x7d" = Ty.TypeAction :=
  ⟨by decide, C1_processed_shortcircuit _ (by decide)⟩

/- ===== claim C2 ===== -/

/-- C2: a Point's store key is its Name when the label value is empty and
    Name dot label value otherwise; Set keeps store keys unique, and two
    Sets of key-sharing points leave exactly one entry for that key, holding
    the second point and hence its Value. -/
theorem C2_key_replacement (p : Point) (s : Store) (p1 p2 : Point)
    (hnd : s.KeysNodup) (hk : p1.Key = p2.Key) :
    ((p.LabelValue = "" → p.Key = p.Name) ∧
      (p.LabelValue ≠ "" → p.Key = p.Name ++ "." ++ p.LabelValue)) ∧
    ((s.Set p1).Set p2).KeysNodup ∧
    ((s.Set p1).Set p2).entries.map Prod.fst = (s.Set p1).entries.map Prod.fst ∧
    ((s.Set p1).Set p2).entries.filter (fun e => e.1 == p2.Key) = [(p2.Key, p2)] ∧
    (((s.Set p1).Set p2).entries.filter (fun e => e.1 == p2.Key)).map
      (fun e => e.2.Value) = [p2.Value] := by
  refine ⟨⟨fun h => by simp [Point.Key, h], fun h => by simp [Point.Key, h]⟩, ?_, ?_, ?_, ?_⟩
  · exact assocSet_nodupKeys _ _ _ (assocSet_nodupKeys _ _ _ hnd)
  · have hmem : p2.Key ∈ (s.Set p1).entries.map Prod.fst := by
      rw [← hk]
      exact mem_assocSet_keys _ _ _
    show (assocSet (s.Set p1).entries p2.Key p2).map Prod.fst = _
    rw [assocSet_keys, if_pos hmem]
  · refine filter_key_single _ _ _ (assocSet_nodupKeys _ _ _ (assocSet_nodupKeys _ _ _ hnd)) ?_
    exact assocLookup_set_self _ _ _
  · have h2 : ((s.Set p1).Set p2).entries.filter (fun e => e.1 == p2.Key) = [(p2.Key, p2)] :=
      filter_key_single _ _ _ (assocSet_nodupKeys _ _ _ (assocSet_nodupKeys _ _ _ hnd))
        (assocLookup_set_self _ _ _)
    rw [h2]
    rfl

/-- Witness for C2 at two concrete points sharing the key "k" in the empty
    store. -/
theorem C2_key_replacement_witness :
    Store.empty.KeysNodup ∧
    (Point.Key ⟨"k", "d1", PointType.Counter, 5, "", ""⟩ =
      Point.Key ⟨"k", "d2", PointType.Counter, 9, "", ""⟩) ∧
    ((Point.LabelValue ⟨"n", "d", PointType.Gauge, 1, "lab", "val"⟩ ≠ "" →
        Point.Key ⟨"n", "d", PointType.Gauge, 1, "lab", "val"⟩ = "n" ++ "." ++ "val") ∧
      ((Store.Set (Store.Set Store.empty ⟨"k", "d1", PointType.Counter, 5, "", ""⟩)
          ⟨"k", "d2", PointType.Counter, 9, "", ""⟩).entries.filter
        (fun e => e.1 == Point.Key ⟨"k", "d2", PointType.Counter, 9, "", ""⟩)).map
        (fun e => e.2.Value) = [9]) := by
  have h := C2_key_replacement ⟨"n", "d", PointType.Gauge, 1, "lab", "val"⟩
    Store.empty ⟨"k", "d1", PointType.Counter, 5, "", ""⟩
    ⟨"k", "d2", PointType.Counter, 9, "", ""⟩ (by simp [Store.KeysNodup, Store.empty])
    (by decide)
  exact ⟨by simp [Store.KeysNodup, Store.empty], by decide, h.1.2, h.2.2.2.2⟩

/- ===== claim C3 ===== -/

theorem goSplitN_length_le (sep : Char) :
    ∀ (n : Nat) (s : List Char), 1 ≤ n → (goSplitN s sep n).length ≤ n := by
  intro n
  induction n with
  | zero => intro s h; omega
  | succ m ih =>
    intro s _
    cases m with
    | zero => simp [goSplitN]
    | succ m2 =>
      show (goSplitN s sep (m2 + 2)).length ≤ m2 + 2
      have : goSplitN s sep (m2 + 2) =
          match splitOnce s sep with
          | none => [s]
          | some (pre, post) => pre :: goSplitN post sep (m2 + 1) := rfl
      rw [this]
      cases hsp : splitOnce s sep with
      | none => simp
      | some pp =>
        have := ih pp.2 (by omega)
        simp only [List.length_cons]
        omega

/-- C3: handleStatLine splits the raw line around single spaces into at most
    4 fields, fails with the split error whenever the count differs from 4,
    and otherwise hands exactly the 4th field to the classification and
    decoding tail. -/
theorem C3_split_contract (st : Store) (raw : String) :
    (goSplitN raw.data ' ' 4).length ≤ 4 ∧
    ((goSplitN raw.data ' ' 4).length ≠ 4 →
      handleStatLine st raw =
        Except.error (LineError.splitError (goSplitN raw.data ' ' 4).length)) ∧
    ((goSplitN raw.data ' ' 4).length = 4 →
      handleStatLine st raw =
        handleStatPayload st (String.mk ((goSplitN raw.data ' ' 4).getD 3 []))) := by
  refine ⟨goSplitN_length_le ' ' 4 raw.data (by omega), fun h => ?_, fun h => ?_⟩
  · simp [handleStatLine, h]
  · simp [handleStatLine, h]

/-- Witness for C3: a 3-field line fails with the split error, a 4-field
    line reaches the classification tail with the 4th field. -/
theorem C3_split_contract_witness :
    (goSplitN ("a b c" : String).data ' ' 4).length = 3 ∧
    handleStatLine (Store.Set Store.empty errorPoint) "a b c" =
      Except.error (LineError.splitError (goSplitN ("a b c" : String).data ' ' 4).length) ∧
    (goSplitN ("t1 t2 t3 x" : String).data ' ' 4).length = 4 ∧
    handleStatLine (Store.Set Store.empty errorPoint) "t1 t2 t3 x" =
      handleStatPayload (Store.Set Store.empty errorPoint)
        (String.mk ((goSplitN ("t1 t2 t3 x" : String).data ' ' 4).getD 3 [])) :=
  ⟨by decide, (C3_split_contract _ _).2.1 (by decide), by decide,
    (C3_split_contract _ _).2.2 (by decide)⟩

/- ===== claim C10 ===== -/

/-- C10: Get on an absent key returns the zero-value Point together with
    ErrPointNotFound, and it reports an error exactly when the key is
    absent; the embedded Get is a pure function of the store, which it does
    not modify. -/
theorem C10_get_absent (s : Store) (k : String) :
    (assocLookup s.entries k = none →
      s.Get k = (Point.zero, some StoreErr.ErrPointNotFound)) ∧
    ((s.Get k).2.isSome ↔ assocLookup s.entries k = none) := by
  constructor
  · intro h
    simp [Store.Get, h]
  · cases h : assocLookup s.entries k with
    | none => simp [Store.Get, h]
    | some p => simp [Store.Get, h]

/-- Witness for C10 on the empty store. -/
theorem C10_get_absent_witness :
    assocLookup Store.empty.entries "missing" = none ∧
    Store.empty.Get "missing" = (Point.zero, some StoreErr.ErrPointNotFound) :=
  ⟨by rfl, (C10_get_absent Store.empty "missing").1 (by rfl)⟩

/- ===== claim C4 ===== -/

/-- C4 as stated is refuted here: a payload whose JSON object carries the
    name "omkafka" (and a submitted field) but also contains the substring
    "processed" is classified as Action, because the substring short-circuit
    runs before the name rules. -/
theorem C4_counterexample :
    unmarshalObj "\x7b\"name\":\"omkafka\",\"processed\":1,\"submitted\":2\x7d" =
      some [("name", Jval.str "omkafka"), ("processed", Jval.num true 1),
        ("submitted", Jval.num true 2)] ∧
    objLookup [("name", Jval.str "omkafka"), ("processed", Jval.num true 1),
      ("submitted", Jval.num true 2)] "name" = some (Jval.str "omkafka") ∧
    StatType "\x7b\"name\":\"omkafka\",\"processed\":1,\"submitted\":2\x7d" = Ty.TypeAction ∧
    Ty.TypeAction ≠ Ty.TypeOmkafka :=
  ⟨by rfl, by rfl, by decide, by decide⟩

/-- C4 amended: for every payload free of the substring "processed" that
    parses as a JSON object whose name field is exactly the string
    "omkafka", StatType returns the KafkaOutput kind, regardless of the
    other fields (in particular a submitted field). -/
theorem C4_omkafka_name (buf : String) (obj : List (String × Jval))
    (hp : goContains buf "processed" = false)
    (ho : unmarshalObj buf = some obj)
    (hn : objLookup obj "name" = some (Jval.str "omkafka")) :
    StatType buf = Ty.TypeOmkafka := by
  have hd : detectByName buf = Ty.TypeOmkafka := by
    simp only [detectByName, ho, hn]
    rfl
  simp [StatType, hp, hd]

/-- Witness for the amended C4 at a concrete payload carrying a submitted
    field. -/
theorem C4_omkafka_name_witness :
    goContains "\x7b\"name\":\"omkafka\",\"submitted\":10\x7d" "processed" = false ∧
    unmarshalObj "\x7b\"name\":\"omkafka\",\"submitted\":10\x7d" =
      some [("name", Jval.str "omkafka"), ("submitted", Jval.num true 10)] ∧
    StatType "\x7b\"name\":\"omkafka\",\"submitted\":10\x7d" = Ty.TypeOmkafka :=
  ⟨by decide, by rfl, C4_omkafka_name _ _ (by decide) (by rfl) (by rfl)⟩

/- ===== claims C5 and C6 ===== -/

/-- The DynStat payload from the spec's round-trip property. -/
def dynStatFixture : String :=
  "\x7b\"name\":\"global\",\"values\":\x7b\"a\":1,\"b\":2\x7d\x7d"

/-- C5 as stated is refuted here: decoding fixes the entry multiset but the
    source iterates a Go map whose range order the runtime does not fix, so
    two decodes of the identical input can emit the two Points in either
    order; the two orders below are both permutations of the decoded
    entries, yet the point lists differ. -/
theorem C5_counterexample :
    NewDynStatFromJSON dynStatFixture = some ⟨"global", "", [("a", 1), ("b", 2)]⟩ ∧
    List.Perm [(("a" : String), (1 : Int)), ("b", 2)] [("a", 1), ("b", 2)] ∧
    List.Perm [(("b" : String), (2 : Int)), ("a", 1)] [("a", 1), ("b", 2)] ∧
    DynStat.ToPointsOrd ⟨"global", "", [("a", 1), ("b", 2)]⟩ [("a", 1), ("b", 2)] ≠
      DynStat.ToPointsOrd ⟨"global", "", [("a", 1), ("b", 2)]⟩ [("b", 2), ("a", 1)] :=
  ⟨by rfl, by decide, by decide, by decide⟩

/-- C5 amended: two decodes of the identical input produce the same Points
    up to permutation — the point list under any valid iteration order is a
    permutation of the point list under any other valid iteration order. -/
theorem C5_decode_perm (d : DynStat) (ord1 ord2 : List (String × Int))
    (h1 : ord1.Perm d.Values) (h2 : ord2.Perm d.Values) :
    (d.ToPointsOrd ord1).Perm (d.ToPointsOrd ord2) :=
  List.Perm.map _ (h1.trans h2.symm)

/-- Witness for the amended C5 on the two-entry fixture. -/
theorem C5_decode_perm_witness :
    (DynStat.ToPointsOrd ⟨"global", "", [("a", 1), ("b", 2)]⟩
      [("b", 2), ("a", 1)]).Perm
      (DynStat.ToPointsOrd ⟨"global", "", [("a", 1), ("b", 2)]⟩
        [("a", 1), ("b", 2)]) :=
  C5_decode_perm ⟨"global", "", [("a", 1), ("b", 2)]⟩ _ _ (by decide) (by decide)

/-- C6: decoding the two-counter DynStat payload succeeds with bucket name
    global and entries a maps-to 1 and b maps-to 2, and under every valid
    iteration order the decoder emits exactly 2 Points, both named
    dynstat_global, whose label/value pairs are a with 1 and b with 2. -/
theorem C6_dynstat_roundtrip (ord : List (String × Int))
    (hord : ord.Perm [("a", 1), ("b", 2)]) :
    NewDynStatFromJSON dynStatFixture = some ⟨"global", "", [("a", 1), ("b", 2)]⟩ ∧
    (DynStat.ToPointsOrd ⟨"global", "", [("a", 1), ("b", 2)]⟩ ord).length = 2 ∧
    (∀ p ∈ DynStat.ToPointsOrd ⟨"global", "", [("a", 1), ("b", 2)]⟩ ord,
      p.Name = "dynstat_global") ∧
    ((DynStat.ToPointsOrd ⟨"global", "", [("a", 1), ("b", 2)]⟩ ord).map
      (fun p => (p.LabelValue, p.Value))).Perm [("a", 1), ("b", 2)] := by
  refine ⟨by rfl, ?_, ?_, ?_⟩
  · simp [DynStat.ToPointsOrd, hord.length_eq]
  · intro p hp
    simp only [DynStat.ToPointsOrd, List.mem_map] at hp
    obtain ⟨kv, _, rfl⟩ := hp
    rfl
  · have hmap : (DynStat.ToPointsOrd ⟨"global", "", [("a", 1), ("b", 2)]⟩ ord).map
        (fun p => (p.LabelValue, p.Value)) = ord := by
      simp [DynStat.ToPointsOrd, List.map_map, Function.comp_def, Prod.mk.eta]
    rw [hmap]
    exact hord

/-- Witness for C6 at the iteration order of the decoded entries. -/
theorem C6_dynstat_roundtrip_witness :
    NewDynStatFromJSON dynStatFixture = some ⟨"global", "", [("a", 1), ("b", 2)]⟩ ∧
    (DynStat.ToPointsOrd ⟨"global", "", [("a", 1), ("b", 2)]⟩
      [("a", 1), ("b", 2)]).length = 2 ∧
    (∀ p ∈ DynStat.ToPointsOrd ⟨"global", "", [("a", 1), ("b", 2)]⟩
      [("a", 1), ("b", 2)], p.Name = "dynstat_global") ∧
    ((DynStat.ToPointsOrd ⟨"global", "", [("a", 1), ("b", 2)]⟩
      [("a", 1), ("b", 2)]).map (fun p => (p.LabelValue, p.Value))).Perm
      [("a", 1), ("b", 2)] :=
  C6_dynstat_roundtrip [("a", 1), ("b", 2)] (by decide)

/- ===== claim C7 ===== -/

/-- C7: whenever one line fails to process, the loop body increments the
    stats_line_errors counter Point by exactly 1, changes no other entry,
    adds no key, and the silent flag controls only the diagnostic emission,
    never the counter increment. -/
theorem C7_error_counter (st : Store) (ds : List String) (line : String)
    (silent : Bool) (e : LineError) (pt : Point)
    (herr : handleStatLine st line = Except.error e)
    (hpt : assocLookup st.entries "stats_line_errors" = some pt) :
    assocLookup (runStep silent (st, ds) line).1.entries "stats_line_errors" =
      some { pt with Value := pt.Value + 1 } ∧
    (∀ k, k ≠ "stats_line_errors" →
      assocLookup (runStep silent (st, ds) line).1.entries k =
        assocLookup st.entries k) ∧
    (runStep silent (st, ds) line).1.entries.map Prod.fst =
      st.entries.map Prod.fst ∧
    (runStep silent (st, ds) line).2 = (if silent then ds else ds ++ [line]) := by
  have hstep : runStep silent (st, ds) line =
      (bumpErrCounter st, if silent then ds else ds ++ [line]) := by
    simp [runStep, herr]
  rw [hstep]
  refine ⟨?_, ?_, ?_, rfl⟩
  · exact assocLookup_modify_self _ _ _ _ hpt
  · intro k hk
    exact assocLookup_modify_ne _ _ _ _ hk
  · exact assocModify_keys _ _ _

/-- Witness for C7 on a 3-field line against the store as run initializes
    it, once silent and once not. -/
theorem C7_error_counter_witness :
    handleStatLine (Store.Set Store.empty errorPoint) "a b c" =
      Except.error (LineError.splitError 3) ∧
    assocLookup (Store.Set Store.empty errorPoint).entries "stats_line_errors" =
      some errorPoint ∧
    assocLookup (runStep true (Store.Set Store.empty errorPoint, []) "a b c").1.entries
      "stats_line_errors" = some { errorPoint with Value := errorPoint.Value + 1 } ∧
    (runStep true (Store.Set Store.empty errorPoint, []) "a b c").2 = [] ∧
    (runStep false (Store.Set Store.empty errorPoint, []) "a b c").2 = ["a b c"] := by
  have h1 := C7_error_counter (Store.Set Store.empty errorPoint) [] "a b c" true
    (LineError.splitError 3) errorPoint (by rfl) (by rfl)
  have h2 := C7_error_counter (Store.Set Store.empty errorPoint) [] "a b c" false
    (LineError.splitError 3) errorPoint (by rfl) (by rfl)
  exact ⟨by rfl, by rfl, h1.1, h1.2.2.2, h2.2.2.2⟩

/- ===== claim C8 ===== -/

theorem runLoop_term (silent : Bool) :
    ∀ (lines : List String) (acc : Store × List String) (term : Option String),
      (runLoop silent acc lines term).2 = term := by
  intro lines
  induction lines with
  | nil => intro acc term; rfl
  | cons l ls ih =>
    intro acc term
    simpa [runLoop] using ih (runStep silent acc l) term

/-- C8: run returns nil at a clean end of stream and returns the stream's
    error otherwise, whatever lines were delivered before — malformed or
    unrecognized records never make run return an error. -/
theorem C8_run_termination (silent : Bool) (lines : List String) :
    (run silent lines none).2 = none ∧
    ∀ e, (run silent lines (some e)).2 = some e :=
  ⟨runLoop_term silent lines _ none, fun e => runLoop_term silent lines _ (some e)⟩

/- ===== claim C9 ===== -/

/-- The rest of a character list after the first occurrence of the literal
    head of apiNameRegexp, used only to state the spec's reading. -/
def dropAfterKubeLit : List Char → Option (List Char)
  | [] => none
  | c :: cs =>
    if kubeLit.isPrefixOf (c :: cs) then some ((c :: cs).drop kubeLit.length)
    else dropAfterKubeLit cs

/-- Follows the spec's words, for comparison with the source extraction:
    the label value the spec describes is the substring of the name between
    "mmkubernetes(" and the matching close parenthesis. -/
def specLabelFromName (name : String) : Option String :=
  match dropAfterKubeLit name.data with
  | none => none
  | some rest =>
    if ')' ∈ rest then some (String.mk (rest.takeWhile (fun c => !(c == ')'))))
    else none

/-- C9 as stated is refuted here: the name mmkubernetes(a b) makes a
    Kubernetes-kind record whose spec-side label — the substring between the
    open parenthesis and the matching close parenthesis — is "a b", yet the
    source regular expression rejects the space, leaves Url empty, and all 9
    produced Points carry the empty label value. -/
theorem C9_counterexample :
    StatType "\x7b\"name\":\"mmkubernetes(a b)\"\x7d" = Ty.TypeKubernetes ∧
    NewKubernetesFromJSON "\x7b\"name\":\"mmkubernetes(a b)\"\x7d" =
      some { kubernetesZero with Name := "mmkubernetes(a b)" } ∧
    specLabelFromName "mmkubernetes(a b)" = some "a b" ∧
    (kubernetes.ToPoints { kubernetesZero with Name := "mmkubernetes(a b)" }).map
      (fun p => p.LabelValue) = List.replicate 9 "" ∧
    (("" : String) = "a b" → False) :=
  ⟨by decide, by rfl, by rfl, by rfl, by decide⟩

theorem isPrefixOf_append_self (l t : List Char) : l.isPrefixOf (l ++ t) = true := by
  induction l with
  | nil => simp [List.isPrefixOf]
  | cons c cs ih => simp [List.isPrefixOf, ih]

theorem lastClose_append (l : List Char) (h : ')' ∉ l) :
    lastClose (l ++ [')']) = some (l, []) := by
  induction l with
  | nil => rfl
  | cons c cs ih =>
    have hcs : ')' ∉ cs := fun hm => h (List.mem_cons_of_mem _ hm)
    simp only [List.cons_append, lastClose, List.append_eq, ih hcs]

theorem kubeMatchAt_exact (u : List Char) (hne : u ≠ [])
    (hns : ∀ c ∈ u, reSpace c = false) (hnp : ')' ∉ u) :
    kubeMatchAt (kubeLit ++ (u ++ [')'])) = some u := by
  have hpre := isPrefixOf_append_self kubeLit (u ++ [')'])
  have hdrop : (kubeLit ++ (u ++ [')'])).drop kubeLit.length = u ++ [')'] :=
    List.drop_left kubeLit (u ++ [')'])
  have htake : (u ++ [')']).takeWhile (fun c => !reSpace c) = u ++ [')'] := by
    refine List.takeWhile_eq_self_iff.mpr ?_
    intro c hc
    rcases List.mem_append.mp hc with hcu | hcp
    · simp [hns c hcu]
    · simp only [List.mem_singleton] at hcp
      subst hcp
      decide
  simp only [kubeMatchAt, hpre, if_true, hdrop, htake, lastClose_append u hnp]
  simp [hne]

theorem kubeFindCapture_head (s cap : List Char) (hs : s ≠ [])
    (hm : kubeMatchAt s = some cap) : kubeFindCapture s = some cap := by
  cases s with
  | nil => exact absurd rfl hs
  | cons c cs => simp [kubeFindCapture, hm]

/-- C9 amended: the label value on the 9 produced Points is the capture of
    the source regular expression, which for every name of the well-formed
    shape mmkubernetes(u) with u nonempty, whitespace-free and free of close
    parentheses — and only for such names — is the substring u between the
    open parenthesis and the matching close parenthesis; names outside that
    shape can leave the label empty instead. -/
theorem C9_kubernetes_label (u : String) (k : kubernetes)
    (hne : u.data ≠ [])
    (hns : ∀ c ∈ u.data, reSpace c = false)
    (hnp : ')' ∉ u.data)
    (hname : k.Name = "mmkubernetes(" ++ u ++ ")") :
    k.withUrl.ToPoints.length = 9 ∧
    ∀ p ∈ k.withUrl.ToPoints, p.LabelValue = u := by
  have hdata : k.Name.data = kubeLit ++ (u.data ++ [')']) := by
    rw [hname, String.data_append, String.data_append, List.append_assoc]
    rfl
  have hcap : kubeFindCapture k.Name.data = some u.data := by
    rw [hdata]
    refine kubeFindCapture_head _ _ ?_ (kubeMatchAt_exact u.data hne hns hnp)
    intro hnil
    exact absurd (List.append_eq_nil.mp hnil).1 (by decide)
  have hurl : k.withUrl.Url = u := by
    unfold kubernetes.withUrl
    rw [hcap]
  constructor
  · rfl
  · intro p hp
    simp only [kubernetes.ToPoints, List.mem_cons, List.not_mem_nil, or_false] at hp
    rcases hp with rfl | rfl | rfl | rfl | rfl | rfl | rfl | rfl | rfl <;> exact hurl

/-- Witness for the amended C9 at the deployment-shaped name from the
    decoder test. -/
theorem C9_kubernetes_label_witness :
    (("https://host.domain.tld:6443" : String).data ≠ [] ∧
      ')' ∉ ("https://host.domain.tld:6443" : String).data) ∧
    (kubernetes.withUrl { kubernetesZero with
      Name := "mmkubernetes(" ++ "https://host.domain.tld:6443" ++ ")",
      RecordSeen := 477943 }).ToPoints.length = 9 ∧
    ∀ p ∈ (kubernetes.withUrl { kubernetesZero with
      Name := "mmkubernetes(" ++ "https://host.domain.tld:6443" ++ ")",
      RecordSeen := 477943 }).ToPoints, p.LabelValue = "https://host.domain.tld:6443" :=
  ⟨⟨by decide, by decide⟩,
    (C9_kubernetes_label "https://host.domain.tld:6443" _ (by decide)
      (by decide) (by decide) rfl).1,
    (C9_kubernetes_label "https://host.domain.tld:6443" _ (by decide)
      (by decide) (by decide) rfl).2⟩

end RSE
